import Mathlib

/-!
Verification development for the HDR-merge processing block
(`src/proc/hdr-merge.cpp` of librealsense).

The block merges two temporally adjacent depth frames of an HDR pair.
We embed the data model and the five functions of the source file:
`should_process`, `process_frame`, `discard_depth_merged_frame_if_needed`,
`check_frames_mergeability`, `merging_algorithm`, `is_infrared_valid`
and `should_ir_be_used_for_merging`.

Modelling conventions:
* Metadata values (`rs2_metadata_type`, a 64-bit signed integer) are
  modelled as `Int`; signed 64-bit overflow is undefined behaviour in the
  source and hence outside the model.
* The source casts frame counters with `static_cast<int>` before comparing
  them in `should_ir_be_used_for_merging`; that conversion is
  value-preserving only within 32-bit range, and is modelled exactly by
  `toInt32` (wrapping modulo 2^32, the behaviour of every compiler this
  code targets and guaranteed from C++20 on).
* Frame accessors (`get_width`, `get_frame_metadata`, composite-frame
  profile/metadata delegation) live in repository headers that are not part
  of the analysed sources.  They are modelled from the spec: a frame bundle
  carries width, height, per-pixel data and a metadata set including the
  frame counter, sequence size and sequence id (spec section 3); metadata
  lookup signals absence (spec section 6); queries are modelled as total
  where the source guards them, and as `Option`-valued (with `none`
  standing for the ecosystem raising an error) where a query would hit an
  absent frame.
* `std::map<int, rs2::frameset>` is modelled as an association list with
  unique keys; only `size`, `operator[]` insertion and lookup are used.
* Allocation success of `source.allocate_video_frame` is a boolean input
  `allocOk` to the model.
* The infrared saturation thresholds `IR_UNDER_SATURATED_VALUE` and
  `IR_OVER_SATURATED_VALUE` are declared in `hdr-merge.h`, which is not
  among the analysed sources; they are kept as parameters `low` and `high`
  (spec section 4.5 calls them configuration constants).
-/

namespace HdrMerge

/-- A single video sub-frame (depth or infrared channel): dimensions,
per-pixel data, and its metadata fields.  The `hasSeqSize` / `hasSeqId`
flags model `supports_frame_metadata` for the two subpreset fields checked
by the admission filter; the frame counter is part of the metadata set
of every frame per the data model of the spec. -/
structure SubFrame where
  width : Nat
  height : Nat
  counter : Int
  seqId : Int
  seqSize : Int
  hasSeqSize : Bool
  hasSeqId : Bool
  data : Nat → Nat

/-- A frameset (multi-stream bundle): an optional depth channel and an
optional infrared channel. -/
structure Frameset where
  depth : Option SubFrame
  ir : Option SubFrame

/-- A freshly allocated merged depth frame.  It is allocated with the
profile of the first depth frame (hence its dimensions) and with the first
depth frame as metadata reference (hence its frame counter). -/
structure MergedFrame where
  width : Nat
  height : Nat
  counter : Int
  data : List Nat

/-- An `rs2::frame` value as it occurs in this block: the null frame, a
non-composite video frame, a frameset, or a merged depth frame produced by
the block itself. -/
inductive RFrame where
  | null : RFrame
  | video : RFrame
  | set : Frameset → RFrame
  | merged : MergedFrame → RFrame

/-- Mutable state of the processing block: the two-slot sequence buffer
`_framesets` (a `std::map<int, rs2::frameset>`) and the cached last merge
`_depth_merged_frame`. -/
structure PState where
  framesets : List (Int × Frameset)
  depthMergedFrame : Option RFrame

/-- Wrapping conversion of a 64-bit signed value to a 32-bit
signed value, the effect of `static_cast<int>` on `rs2_metadata_type`. -/
def toInt32 (x : Int) : Int :=
  (x + 2 ^ 31) % 2 ^ 32 - 2 ^ 31

/-- Lookup in the `std::map<int, rs2::frameset>` model. -/
def mapFind : List (Int × Frameset) → Int → Option Frameset
  | [], _ => none
  | (k0, v0) :: rest, k => if k = k0 then some v0 else mapFind rest k

/-- Insertion (`operator[]` assignment) in the map model: replaces the
value at an existing key, otherwise adds the key. -/
def mapInsert : List (Int × Frameset) → Int → Frameset → List (Int × Frameset)
  | [], k, v => [(k, v)]
  | (k0, v0) :: rest, k, v =>
    if k = k0 then (k, v) :: rest else (k0, v0) :: mapInsert rest k v

/-- Frame-counter metadata of a cached or raw frame, as read by
`discard_depth_merged_frame_if_needed`.  Modelled from the spec: a
counter of a composite frame is the frame counter of its depth channel (spec
section 4.6 compares the cached merge against the counter of the
current raw input); a merged frame carries the counter it was allocated with.
`none` models the ecosystem error on a frame with no such metadata. -/
def frame_counter_md : RFrame → Option Int
  | .set fs => fs.depth.map (fun d => d.counter)
  | .merged m => some m.counter
  | _ => none

/-- Width and height of the video stream profile of a frame, as read by
`discard_depth_merged_frame_if_needed`.  Modelled from the spec: for a
composite frame these are the dimensions of the depth channel (spec section 4.6
compares depth width/height). -/
def profile_dims : RFrame → Option (Nat × Nat)
  | .set fs => fs.depth.map (fun d => (d.width, d.height))
  | .merged m => some (m.width, m.height)
  | _ => none

/-- Admission filter `hdr_merge::should_process` (hdr-merge.cpp lines
13-35): only a non-null frameset with a depth channel that supports both
subpreset metadata fields and has sequence size 2 is processed. -/
def should_process : RFrame → Bool
  | .set fs =>
    match fs.depth with
    | none => false
    | some depth_frame =>
      if !depth_frame.hasSeqSize then false
      else if !depth_frame.hasSeqId then false
      else if depth_frame.seqSize ≠ 2 then false
      else true
  | _ => false

/-- Infrared validity band `hdr_merge::is_infrared_valid` (lines 209-212):
strictly above the under-saturation threshold and strictly below the
over-saturation threshold.  The thresholds are the configuration constants
of hdr-merge.h, kept as parameters. -/
def is_infrared_valid (low high ir : Nat) : Bool :=
  decide (ir > low) && decide (ir < high)

/-- Infrared eligibility `hdr_merge::should_ir_be_used_for_merging` (lines
214-260).  The source first requires both infrared frames non-null, then
compares dimensions (first depth vs first infrared, second infrared vs
first infrared), then frame counters after `static_cast<int>`, then
sequence ids.  When an infrared frame is absent the source still evaluates
the dimension comparison on it; that query is modelled from the spec as
total (spec section 6), and its outcome is irrelevant because `use_ir` is
already false, so the absent case simply returns false. -/
def should_ir_be_used_for_merging (first_depth : SubFrame) (first_ir : Option SubFrame)
    (second_depth : SubFrame) (second_ir : Option SubFrame) : Bool :=
  match first_ir, second_ir with
  | some fi, some si =>
    if first_depth.height ≠ fi.height ∨ first_depth.width ≠ fi.width ∨
        si.height ≠ fi.height ∨ si.width ≠ fi.width then false
    else if toInt32 first_depth.counter ≠ toInt32 fi.counter then false
    else if toInt32 second_depth.counter ≠ toInt32 si.counter then false
    else if first_depth.seqId ≠ fi.seqId then false
    else if second_depth.seqId ≠ si.seqId then false
    else true
  | _, _ => false

/-- Pair validation `hdr_merge::check_frames_mergeability` (lines
120-143): returns `(mergeable, use_ir)`; `use_ir` is an out-parameter
of the caller, initialised to false and only written on the success path.
`none` models the ecosystem error when a frameset has no depth channel. -/
def check_frames_mergeability (first_fs second_fs : Frameset) : Option (Bool × Bool) :=
  match first_fs.depth, second_fs.depth with
  | some first_depth, some second_depth =>
    if first_depth.counter + 1 ≠ second_depth.counter then some (false, false)
    else if first_depth.height ≠ second_depth.height ∨
        first_depth.width ≠ second_depth.width then some (false, false)
    else some (true, should_ir_be_used_for_merging first_depth first_fs.ir
        second_depth second_fs.ir)
  | _, _ => none

/-- Per-pixel selection in the infrared-guided branch of
`hdr_merge::merging_algorithm` (lines 181-189). -/
def merge_pixel_ir (low high : Nat) (d0 d1 i0 i1 : Nat → Nat) (i : Nat) : Nat :=
  if is_infrared_valid low high (i0 i) ∧ d0 i ≠ 0 then d0 i
  else if is_infrared_valid low high (i1 i) ∧ d1 i ≠ 0 then d1 i
  else 0

/-- Per-pixel selection in the depth-only branch of
`hdr_merge::merging_algorithm` (lines 193-201). -/
def merge_pixel_depth (d0 d1 : Nat → Nat) (i : Nat) : Nat :=
  if d0 i ≠ 0 then d0 i else if d1 i ≠ 0 then d1 i else 0

/-- Merge engine `hdr_merge::merging_algorithm` (lines 145-207).  On
allocation success it builds the merged frame (profile and metadata
reference of the first depth frame, row-major pixel loop over
width*height); on allocation failure it returns the first frameset
unchanged.  `none` models the ecosystem error of dereferencing an absent
depth or infrared frame: the dimensions of the first depth frame are read
before allocation, the data of the second depth frame only after a successful
allocation, and infrared data only in the infrared-guided loop. -/
def merging_algorithm (low high : Nat) (allocOk : Bool)
    (first_fs second_fs : Frameset) (use_ir : Bool) : Option RFrame :=
  match first_fs.depth with
  | none => none
  | some first_depth =>
    if allocOk then
      match second_fs.depth with
      | none => none
      | some second_depth =>
        if use_ir then
          match first_fs.ir, second_fs.ir with
          | some fi, some si =>
            some (.merged ⟨first_depth.width, first_depth.height, first_depth.counter,
              (List.range (first_depth.width * first_depth.height)).map
                (merge_pixel_ir low high first_depth.data second_depth.data fi.data si.data)⟩)
          | _, _ => none
        else
          some (.merged ⟨first_depth.width, first_depth.height, first_depth.counter,
            (List.range (first_depth.width * first_depth.height)).map
              (merge_pixel_depth first_depth.data second_depth.data)⟩)
    else
      some (.set first_fs)

/-- Staleness guard `hdr_merge::discard_depth_merged_frame_if_needed`
(lines 98-118).  Returns the new cache contents; `none` models the
ecosystem error of a metadata query failing. -/
def discard_depth_merged_frame_if_needed (cache : Option RFrame) (f : RFrame) :
    Option (Option RFrame) :=
  match cache with
  | none => some none
  | some c =>
    match frame_counter_md c, frame_counter_md f, profile_dims c, profile_dims f with
    | some mc, some ic, some (mw, mh), some (iw, ih) =>
      if mc > ic ∨ mw ≠ iw ∨ mh ≠ ih then some none else some (some c)
    | _, _, _, _ => none

/-- Sequence-buffer admission step, hdr-merge.cpp lines 61-64: the frameset
is stored at its sequence id only when the occupancy of the buffer equals that
sequence id.  The `size() == depth_seq_id` comparison converts both sides
to unsigned 64-bit; for the sizes a `List` can have this agrees with the
direct `Int` equality used here (a negative id never equals a size).  The
map key is `int`, hence the `toInt32` conversion of the sequence id. -/
def storeStep (m : List (Int × Frameset)) (depth_seq_id : Int) (fs : Frameset) :
    List (Int × Frameset) :=
  if (m.length : Int) = depth_seq_id then mapInsert m (toInt32 depth_seq_id) fs else m

/-- Final step of `hdr_merge::process_frame` (lines 92-95): return the
cached merge if present, the raw input otherwise. -/
def latest_or_input (cache : Option RFrame) (f : RFrame) : RFrame :=
  match cache with
  | some c => c
  | none => f

/-- Steps 5-7 of `hdr_merge::process_frame` (lines 74-95) for an
extracted pair: validate, merge or run the staleness guard, and build the
output frame.  The buffer has already been cleared (line 72), so the buffer of the new
state is empty on every outcome.  On the merge path the guard
`if (new_frame)` of the source always passes, because `merging_algorithm`
returns either the allocated frame or the non-null first frameset, so the
cache is unconditionally overwritten with that result. -/
def process_pair (low high : Nat) (st : PState) (f : RFrame) (allocOk : Bool)
    (fs_0 fs_1 : Frameset) : Option (RFrame × PState) :=
  match check_frames_mergeability fs_0 fs_1 with
  | some (mergeable, use_ir) =>
    if mergeable then
      match merging_algorithm low high allocOk fs_0 fs_1 use_ir with
      | some new_frame =>
        some (latest_or_input (some new_frame) f, ⟨[], some new_frame⟩)
      | none => none
    else
      match discard_depth_merged_frame_if_needed st.depthMergedFrame f with
      | some cache1 => some (latest_or_input cache1 f, ⟨[], cache1⟩)
      | none => none
  | none => none

/-- Steps 2-4 and 7 of `hdr_merge::process_frame` (lines 54-72, 92-95):
admit the bundle into the sequence buffer, and if the buffer then holds
two bundles, extract both, clear the buffer and hand the pair on;
otherwise return the cached merge (or the input) with the buffer kept. -/
def process_eligible (low high : Nat) (st : PState) (f : RFrame) (allocOk : Bool)
    (fs : Frameset) (depth_frame : SubFrame) : Option (RFrame × PState) :=
  if 2 ≤ (storeStep st.framesets depth_frame.seqId fs).length then
    match mapFind (storeStep st.framesets depth_frame.seqId fs) 0,
        mapFind (storeStep st.framesets depth_frame.seqId fs) 1 with
    | some fs_0, some fs_1 => process_pair low high st f allocOk fs_0 fs_1
    | _, _ => none
  else
    some (latest_or_input st.depthMergedFrame f,
      ⟨storeStep st.framesets depth_frame.seqId fs, st.depthMergedFrame⟩)

/-- Processing entry point `hdr_merge::process_frame` (lines 38-96).
`allocOk` is the allocation outcome of the merge engine.  The returned pair is
(output frame, new state); `none` models an ecosystem error escaping the
function (casting a non-frameset input, a stored frameset without a depth
channel, or a failing metadata query), none of which is reachable from
admitted inputs. -/
def process_frame (low high : Nat) (st : PState) (f : RFrame) (allocOk : Bool) :
    Option (RFrame × PState) :=
  match f with
  | .set fs =>
    match fs.depth with
    | some depth_frame => process_eligible low high st f allocOk fs depth_frame
    | none => none
  | _ => none

/-- One invocation of the block as wired by `generic_processing_block`:
the host routes a frame into `process_frame` only when `should_process`
accepts it, otherwise the frame passes through and the state is untouched.
The `getD` fallback is never exercised for admitted inputs. -/
def invoke (low high : Nat) (st : PState) (f : RFrame) (allocOk : Bool) : RFrame × PState :=
  if should_process f then (process_frame low high st f allocOk).getD (f, st) else (f, st)

/-- Initial state of a freshly constructed block: empty buffer, no cached
merge. -/
def initState : PState := ⟨[], none⟩

/-- A run of the block over a list of (input frame, allocation outcome)
invocations. -/
def runTrace (low high : Nat) : PState → List (RFrame × Bool) → PState
  | st, [] => st
  | st, (f, a) :: rest => runTrace low high (invoke low high st f a).2 rest

/-- Sequence-buffer invariant: at most one pending bundle, and a single
pending bundle occupies slot 0. -/
def bufInv (m : List (Int × Frameset)) : Prop :=
  m = [] ∨ ∃ fs, m = [(0, fs)]

/-- Example sub-frame builder used in concrete instances: dimensions,
frame counter, sequence id, constant pixel value, both subpreset metadata
fields supported, sequence size 2. -/
def mkFrame (w h : Nat) (c sid : Int) (v : Nat) : SubFrame :=
  ⟨w, h, c, sid, 2, true, true, fun _ => v⟩

/-- Example first frameset: 2x2 depth frame, counter 10, sequence id 0. -/
def exFirstFs : Frameset := ⟨some (mkFrame 2 2 10 0 5), none⟩

/-- Example second frameset: 2x2 depth frame, counter 11, sequence id 1. -/
def exSecondFs : Frameset := ⟨some (mkFrame 2 2 11 1 7), none⟩

/-- C4 (amended): for all thresholds and every infrared value, the
validity predicate holds iff the value lies strictly between the
under-saturation and over-saturation thresholds: the band is strictly
open at both ends. -/
theorem is_infrared_valid_open_band (low high ir : Nat) :
    is_infrared_valid low high ir = true ↔ low < ir ∧ ir < high := by
  simp [is_infrared_valid]

/-- C4 (counterexample): at the representative saturation thresholds 5 and
250, the 8-bit value 250 sits in the claimed half-open band
`IR_LOW < ir ≤ IR_HIGH` but the predicate of the code rejects it, refuting the
claimed closed upper end. -/
theorem is_infrared_valid_upper_threshold_cex :
    ¬(is_infrared_valid 5 250 250 = true ↔ 5 < 250 ∧ (250 : Nat) ≤ 250) := by
  decide

/-- C3: for any two framesets with depth channels, pair validation
succeeds and reports mergeable exactly when the second depth frame counter
is the counter of the first plus one and the two depth channels have identical width
and height; in particular a counter gap of 2 yields not-mergeable. -/
theorem check_frames_mergeability_iff (ffs sfs : Frameset) (fd sd : SubFrame)
    (hf : ffs.depth = some fd) (hs : sfs.depth = some sd) :
    ∃ b u, check_frames_mergeability ffs sfs = some (b, u) ∧
      (b = true ↔ fd.counter + 1 = sd.counter ∧ fd.width = sd.width ∧
        fd.height = sd.height) := by
  by_cases h1 : fd.counter + 1 = sd.counter
  · by_cases h2 : fd.height = sd.height
    · by_cases h3 : fd.width = sd.width
      · exact ⟨true, should_ir_be_used_for_merging fd ffs.ir sd sfs.ir,
          by simp [check_frames_mergeability, hf, hs, h1, h2, h3],
          by simp [h1, h2, h3]⟩
      · exact ⟨false, false,
          by simp [check_frames_mergeability, hf, hs, h1, h2, h3],
          by simp [h3]⟩
    · exact ⟨false, false,
        by simp [check_frames_mergeability, hf, hs, h1, h2],
        by simp [h2]⟩
  · exact ⟨false, false,
      by simp [check_frames_mergeability, hf, hs, h1],
      by simp [h1]⟩

/-- C3 (witness): the validator applied to the example pair with adjacent
counters 10 and 11 and equal 2x2 dimensions. -/
theorem check_frames_mergeability_iff_witness :
    ∃ b u, check_frames_mergeability exFirstFs exSecondFs = some (b, u) ∧
      (b = true ↔ (mkFrame 2 2 10 0 5).counter + 1 = (mkFrame 2 2 11 1 7).counter ∧
        (mkFrame 2 2 10 0 5).width = (mkFrame 2 2 11 1 7).width ∧
        (mkFrame 2 2 10 0 5).height = (mkFrame 2 2 11 1 7).height) :=
  check_frames_mergeability_iff exFirstFs exSecondFs _ _ rfl rfl

/-- C2: under the buffer invariant, the admission step inserts the bundle
at slot k (its sequence id) exactly when the occupancy equals k: a bundle
whose sequence id differs from the occupancy (for example sequence id 1
into an empty buffer) is silently dropped leaving the buffer unchanged,
and whenever admission completes a pair, the buffer held a slot-0 bundle
admitted earlier and the new bundle has sequence id 1, so a completed
pair is always a slot-0 bundle followed by a slot-1 bundle. -/
theorem sequence_buffer_in_order_admission (m : List (Int × Frameset)) (fs : Frameset)
    (sid : Int) (hinv : bufInv m) :
    ((m.length : Int) ≠ sid → storeStep m sid fs = m) ∧
    ((m.length : Int) = sid →
      mapFind (storeStep m sid fs) sid = some fs ∧
      ∀ k, k ≠ sid → mapFind (storeStep m sid fs) k = mapFind m k) ∧
    (2 ≤ (storeStep m sid fs).length →
      ∃ f0, m = [(0, f0)] ∧ sid = 1 ∧
        mapFind (storeStep m sid fs) 0 = some f0 ∧
        mapFind (storeStep m sid fs) 1 = some fs) := by
  have h32_0 : toInt32 0 = 0 := by decide
  have h32_1 : toInt32 1 = 1 := by decide
  rcases hinv with rfl | ⟨g, rfl⟩
  · refine ⟨fun h => by unfold storeStep; rw [if_neg h], fun h => ?_, fun h => ?_⟩
    · have hsid : sid = 0 := by simp at h; omega
      subst hsid
      refine ⟨by simp [storeStep, mapInsert, mapFind, h32_0], ?_⟩
      intro k hk
      simp [storeStep, mapInsert, mapFind, h32_0, hk]
    · exfalso
      unfold storeStep at h
      split at h
      case isTrue hg =>
        have hsid : sid = 0 := by simp at hg; omega
        subst hsid
        simp [mapInsert, h32_0] at h
      case isFalse hg => simp at h
  · refine ⟨fun h => by unfold storeStep; rw [if_neg h], fun h => ?_, fun h => ?_⟩
    · have hsid : sid = 1 := by simp at h; omega
      subst hsid
      refine ⟨by simp [storeStep, mapInsert, mapFind, h32_1], ?_⟩
      intro k hk
      by_cases hk0 : k = 0
      · subst hk0; simp [storeStep, mapInsert, mapFind, h32_1]
      · simp [storeStep, mapInsert, mapFind, h32_1, hk, hk0]
    · unfold storeStep at h
      split at h
      case isTrue hg =>
        have hsid : sid = 1 := by simp at hg; omega
        subst hsid
        exact ⟨g, rfl, rfl, by simp [storeStep, mapInsert, mapFind, h32_1],
          by simp [storeStep, mapInsert, mapFind, h32_1]⟩
      case isFalse hg => exfalso; simp at h

/-- C2 (witness): a bundle with sequence id 1 delivered to the empty
buffer is dropped and the buffer stays empty. -/
theorem sequence_buffer_in_order_admission_witness :
    storeStep [] 1 exSecondFs = [] :=
  (sequence_buffer_in_order_admission [] exSecondFs 1 (Or.inl rfl)).1 (by decide)

/-- C8 (amended): a frameset with a depth channel passes the admission
filter iff the depth channel supports the sequence-size field and the
sequence-id field and its sequence size is 2; lacking either of the two
metadata fields rejects the bundle. -/
theorem should_process_requires_both_fields (fs : Frameset) (d : SubFrame)
    (hd : fs.depth = some d) :
    should_process (.set fs) = true ↔
      d.hasSeqSize = true ∧ d.hasSeqId = true ∧ d.seqSize = 2 := by
  cases hss : d.hasSeqSize <;> cases hsi : d.hasSeqId <;>
    simp [should_process, hd, hss, hsi]

/-- C8 (counterexample): a frameset whose depth channel carries the
sequence-size field (with value 2) but not the sequence-id field is
rejected by the admission filter, although the claim says a bundle
carrying one of the two fields is not rejected on the metadata ground and
no other rejection ground applies to it. -/
theorem should_process_one_field_cex :
    should_process (.set ⟨some ⟨2, 2, 7, 0, 2, true, false, fun _ => 0⟩, none⟩) = false ∧
    (⟨2, 2, 7, 0, 2, true, false, fun _ => 0⟩ : SubFrame).hasSeqSize = true ∧
    (⟨2, 2, 7, 0, 2, true, false, fun _ => 0⟩ : SubFrame).seqSize = 2 :=
  ⟨rfl, rfl, rfl⟩

/-- C8 (witness): the admission filter applied to the example first
frameset, whose depth channel carries both fields and sequence size 2. -/
theorem should_process_requires_both_fields_witness :
    should_process (.set exFirstFs) = true ↔
      (mkFrame 2 2 10 0 5).hasSeqSize = true ∧ (mkFrame 2 2 10 0 5).hasSeqId = true ∧
      (mkFrame 2 2 10 0 5).seqSize = 2 :=
  should_process_requires_both_fields exFirstFs _ rfl

/-- C1: for a pair with depth and infrared channels and any pixel index
below width*height of the first depth frame, the merge engine (with
successful allocation) produces a merged frame whose pixel i is: in
depth-only mode, the first depth value if nonzero, else the second depth
value if nonzero, else 0; in infrared-guided mode, the first depth value
if its infrared value is valid and the depth nonzero, else the second
depth value under the same test, else 0 — so the first frame always wins
when both candidates are valid. -/
theorem merging_algorithm_pixel_selection (low high : Nat) (ffs sfs : Frameset)
    (fd sd fi si : SubFrame) (i : Nat)
    (hfd : ffs.depth = some fd) (hsd : sfs.depth = some sd)
    (hfi : ffs.ir = some fi) (hsi : sfs.ir = some si)
    (hi : i < fd.width * fd.height) :
    (∃ m, merging_algorithm low high true ffs sfs false = some (.merged m) ∧
      m.data.get? i = some (if fd.data i ≠ 0 then fd.data i
        else if sd.data i ≠ 0 then sd.data i else 0)) ∧
    (∃ m, merging_algorithm low high true ffs sfs true = some (.merged m) ∧
      m.data.get? i = some (if is_infrared_valid low high (fi.data i) ∧ fd.data i ≠ 0
        then fd.data i
        else if is_infrared_valid low high (si.data i) ∧ sd.data i ≠ 0 then sd.data i
        else 0)) := by
  constructor
  · refine ⟨⟨fd.width, fd.height, fd.counter,
      (List.range (fd.width * fd.height)).map (merge_pixel_depth fd.data sd.data)⟩, ?_, ?_⟩
    · simp [merging_algorithm, hfd, hsd]
    · simp [List.get?_eq_getElem?, List.getElem?_map, List.getElem?_range hi,
        merge_pixel_depth]
  · refine ⟨⟨fd.width, fd.height, fd.counter,
      (List.range (fd.width * fd.height)).map
        (merge_pixel_ir low high fd.data sd.data fi.data si.data)⟩, ?_, ?_⟩
    · simp [merging_algorithm, hfd, hsd, hfi, hsi]
    · simp [List.get?_eq_getElem?, List.getElem?_map, List.getElem?_range hi,
        merge_pixel_ir]

/-- Characterization of the infrared eligibility check when both infrared
frames are present: the if-cascade of the source is the conjunction of the
dimension alignment, the truncated frame-counter equalities and the
sequence-id equalities. -/
theorem should_ir_some_some (fd sd fi si : SubFrame) :
    should_ir_be_used_for_merging fd (some fi) sd (some si) = true ↔
      (fd.height = fi.height ∧ fd.width = fi.width ∧
        si.height = fi.height ∧ si.width = fi.width) ∧
      toInt32 fd.counter = toInt32 fi.counter ∧
      toInt32 sd.counter = toInt32 si.counter ∧
      fd.seqId = fi.seqId ∧ sd.seqId = si.seqId := by
  simp only [should_ir_be_used_for_merging]
  split
  case isTrue hc => simp; tauto
  case isFalse hc =>
    push_neg at hc
    split
    case isTrue h2 => simp; tauto
    case isFalse h2 =>
      split
      case isTrue h3 => simp; tauto
      case isFalse h3 =>
        split
        case isTrue h4 => simp; tauto
        case isFalse h4 =>
          split
          case isTrue h5 => simp; tauto
          case isFalse h5 => simp; tauto

/-- C7 (amended): for a mergeable pair (equal depth dimensions), infrared
guidance is used iff both bundles carry an infrared channel, the infrared
dimensions match the depth dimensions on both sides, the depth and infrared
frame counters of each bundle agree after conversion to 32-bit int (the
source compares them through a `static_cast<int>`), and the depth and
infrared sequence ids of each bundle agree; any failed condition yields false
rather than an error. -/
theorem should_ir_truncated_iff (fd sd : SubFrame) (fir sir : Option SubFrame)
    (hw : fd.width = sd.width) (hh : fd.height = sd.height) :
    should_ir_be_used_for_merging fd fir sd sir = true ↔
      ∃ fi si, fir = some fi ∧ sir = some si ∧
        fi.width = fd.width ∧ fi.height = fd.height ∧
        si.width = sd.width ∧ si.height = sd.height ∧
        toInt32 fd.counter = toInt32 fi.counter ∧
        toInt32 sd.counter = toInt32 si.counter ∧
        fd.seqId = fi.seqId ∧ sd.seqId = si.seqId := by
  cases fir with
  | none => simp [should_ir_be_used_for_merging]
  | some fi =>
    cases sir with
    | none => simp [should_ir_be_used_for_merging]
    | some si =>
      rw [should_ir_some_some]
      constructor
      · rintro ⟨⟨h1, h2, h3, h4⟩, h5, h6, h7, h8⟩
        exact ⟨fi, si, rfl, rfl, by omega, by omega, by omega, by omega, h5, h6, h7, h8⟩
      · rintro ⟨fi2, si2, hfi2, hsi2, h1, h2, h3, h4, h5, h6, h7, h8⟩
        rw [Option.some.injEq] at hfi2 hsi2
        subst hfi2
        subst hsi2
        exact ⟨⟨by omega, by omega, by omega, by omega⟩, h5, h6, h7, h8⟩

/-- C7 (witness): infrared eligibility on a concrete mergeable pair whose
infrared channels align in dimensions, counters and sequence ids. -/
theorem should_ir_truncated_iff_witness :
    should_ir_be_used_for_merging (mkFrame 2 2 10 0 5) (some (mkFrame 2 2 10 0 100))
        (mkFrame 2 2 11 1 7) (some (mkFrame 2 2 11 1 100)) = true ↔
      ∃ fi si, some (mkFrame 2 2 10 0 100) = some fi ∧
        some (mkFrame 2 2 11 1 100) = some si ∧
        fi.width = (mkFrame 2 2 10 0 5).width ∧
        fi.height = (mkFrame 2 2 10 0 5).height ∧
        si.width = (mkFrame 2 2 11 1 7).width ∧
        si.height = (mkFrame 2 2 11 1 7).height ∧
        toInt32 (mkFrame 2 2 10 0 5).counter = toInt32 fi.counter ∧
        toInt32 (mkFrame 2 2 11 1 7).counter = toInt32 si.counter ∧
        (mkFrame 2 2 10 0 5).seqId = fi.seqId ∧
        (mkFrame 2 2 11 1 7).seqId = si.seqId :=
  should_ir_truncated_iff (mkFrame 2 2 10 0 5) (mkFrame 2 2 11 1 7)
    (some (mkFrame 2 2 10 0 100)) (some (mkFrame 2 2 11 1 100)) rfl rfl

/-- Example first frameset with an aligned infrared channel. -/
def exFirstIrFs : Frameset := ⟨some (mkFrame 1 1 10 0 5), some (mkFrame 1 1 10 0 100)⟩

/-- Example second frameset with an aligned infrared channel. -/
def exSecondIrFs : Frameset := ⟨some (mkFrame 1 1 11 1 7), some (mkFrame 1 1 11 1 100)⟩

/-- C1 (witness): the merge engine on the concrete 1x1 pair, in both
modes, at pixel 0. -/
theorem merging_algorithm_pixel_selection_witness :
    (∃ m, merging_algorithm 5 250 true exFirstIrFs exSecondIrFs false = some (.merged m) ∧
      m.data.get? 0 = some (if (mkFrame 1 1 10 0 5).data 0 ≠ 0 then (mkFrame 1 1 10 0 5).data 0
        else if (mkFrame 1 1 11 1 7).data 0 ≠ 0 then (mkFrame 1 1 11 1 7).data 0 else 0)) ∧
    (∃ m, merging_algorithm 5 250 true exFirstIrFs exSecondIrFs true = some (.merged m) ∧
      m.data.get? 0 = some (if is_infrared_valid 5 250 ((mkFrame 1 1 10 0 100).data 0) ∧
          (mkFrame 1 1 10 0 5).data 0 ≠ 0 then (mkFrame 1 1 10 0 5).data 0
        else if is_infrared_valid 5 250 ((mkFrame 1 1 11 1 100).data 0) ∧
          (mkFrame 1 1 11 1 7).data 0 ≠ 0 then (mkFrame 1 1 11 1 7).data 0
        else 0)) :=
  merging_algorithm_pixel_selection 5 250 exFirstIrFs exSecondIrFs
    (mkFrame 1 1 10 0 5) (mkFrame 1 1 11 1 7) (mkFrame 1 1 10 0 100) (mkFrame 1 1 11 1 100)
    0 rfl rfl rfl rfl (by decide)

/-- C5 (amended): when allocation fails inside the merge engine, the merge
engine returns the original first bundle unmodified; the caller then sees
a non-null frame and stores it as the new cached merge result, so on the
allocation-failure path the cache IS updated — it comes to hold the
unmerged first bundle, which is also the output of this invocation. -/
theorem alloc_failure_returns_first_and_caches_it (low high : Nat) (st : PState)
    (g0 fs : Frameset) (d : SubFrame) (u : Bool)
    (hbuf : st.framesets = [(0, g0)]) (hd : fs.depth = some d) (hsid : d.seqId = 1)
    (hcheck : check_frames_mergeability g0 fs = some (true, u)) :
    merging_algorithm low high false g0 fs u = some (.set g0) ∧
    process_frame low high st (.set fs) false = some (.set g0, ⟨[], some (.set g0)⟩) := by
  have h32_1 : toInt32 1 = 1 := by decide
  obtain ⟨gd, hg⟩ : ∃ gd, g0.depth = some gd := by
    rcases hg : g0.depth with _ | gd
    · exfalso; simp [check_frames_mergeability, hg] at hcheck
    · exact ⟨gd, rfl⟩
  have hma : merging_algorithm low high false g0 fs u = some (.set g0) := by
    simp [merging_algorithm, hg]
  refine ⟨hma, ?_⟩
  have hstep : storeStep st.framesets d.seqId fs = [(0, g0), (1, fs)] := by
    simp [storeStep, hbuf, hsid, mapInsert, h32_1]
  simp [process_frame, process_eligible, hd, hstep, mapFind, process_pair, hcheck, hma,
    latest_or_input]

/-- C5 (counterexample): a concrete run in which the cache is empty, a
mergeable pair completes, and allocation fails: the invocation ends with
the cache holding the unmerged first bundle, so the cached merge result
WAS updated on the allocation-failure path, contrary to the claim. -/
theorem alloc_failure_updates_cache_cex :
    process_frame 5 250 ⟨[(0, exFirstFs)], none⟩ (.set exSecondFs) false =
      some (.set exFirstFs, ⟨[], some (.set exFirstFs)⟩) ∧
    (⟨[(0, exFirstFs)], none⟩ : PState).depthMergedFrame = none :=
  ⟨rfl, rfl⟩

/-- C5 (witness): the amended statement at the concrete mergeable pair
with counters 10 and 11. -/
theorem alloc_failure_returns_first_and_caches_it_witness :
    merging_algorithm 5 250 false exFirstFs exSecondFs false = some (.set exFirstFs) ∧
    process_frame 5 250 ⟨[(0, exFirstFs)], none⟩ (.set exSecondFs) false =
      some (.set exFirstFs, ⟨[], some (.set exFirstFs)⟩) :=
  alloc_failure_returns_first_and_caches_it 5 250 ⟨[(0, exFirstFs)], none⟩
    exFirstFs exSecondFs (mkFrame 2 2 11 1 7) false rfl rfl rfl rfl

/-- C6: when a completed pair fails validation and a cached merged frame
exists, the cache is discarded exactly when the counter of the cached merge
exceeds the depth counter of the input or its width or height differs
from the depth width or height of the input; when none of these hold the cache is
retained and returned as the output of the invocation. -/
theorem cache_staleness_discard_iff (low high : Nat) (st : PState) (g0 fs : Frameset)
    (d : SubFrame) (m : MergedFrame) (a : Bool)
    (hbuf : st.framesets = [(0, g0)]) (hd : fs.depth = some d) (hsid : d.seqId = 1)
    (hcheck : ∃ u, check_frames_mergeability g0 fs = some (false, u))
    (hcache : st.depthMergedFrame = some (.merged m)) :
    ∃ out st2, process_frame low high st (.set fs) a = some (out, st2) ∧
      (st2.depthMergedFrame = none ↔
        (m.counter > d.counter ∨ m.width ≠ d.width ∨ m.height ≠ d.height)) ∧
      (¬(m.counter > d.counter ∨ m.width ≠ d.width ∨ m.height ≠ d.height) →
        st2.depthMergedFrame = some (.merged m) ∧ out = .merged m) := by
  obtain ⟨u, hcheck⟩ := hcheck
  have h32_1 : toInt32 1 = 1 := by decide
  have hstep : storeStep st.framesets d.seqId fs = [(0, g0), (1, fs)] := by
    simp [storeStep, hbuf, hsid, mapInsert, h32_1]
  by_cases hstale : m.counter > d.counter ∨ m.width ≠ d.width ∨ m.height ≠ d.height
  · refine ⟨.set fs, ⟨[], none⟩, ?_, by simpa using hstale, fun hn => absurd hstale hn⟩
    simp [process_frame, process_eligible, hd, hstep, mapFind, process_pair, hcheck,
      discard_depth_merged_frame_if_needed, hcache, frame_counter_md, profile_dims,
      latest_or_input, hstale]
  · refine ⟨.merged m, ⟨[], some (.merged m)⟩, ?_, by simp [hstale], fun _ => ⟨rfl, rfl⟩⟩
    simp [process_frame, process_eligible, hd, hstep, mapFind, process_pair, hcheck,
      discard_depth_merged_frame_if_needed, hcache, frame_counter_md, profile_dims,
      latest_or_input, hstale]

/-- Example stale-check pair: counters 3 and 6 fail adjacency. -/
def exGapFirstFs : Frameset := ⟨some (mkFrame 2 2 3 0 5), none⟩

/-- Example second frameset whose counter leaves a gap of 2 from counter
4. -/
def exGapSecondFs : Frameset := ⟨some (mkFrame 2 2 6 1 7), none⟩

/-- Example cached merged frame with counter 5 and 2x2 dimensions. -/
def exMergedFrame : MergedFrame := ⟨2, 2, 5, []⟩

/-- C6 (witness): the staleness guard on a concrete non-adjacent pair with
a fresh (non-stale) 2x2 cache of counter 5 against an input of counter 6:
the cache is retained and returned. -/
theorem cache_staleness_discard_iff_witness :
    ∃ out st2, process_frame 5 250 ⟨[(0, exGapFirstFs)], some (.merged exMergedFrame)⟩
        (.set exGapSecondFs) true = some (out, st2) ∧
      (st2.depthMergedFrame = none ↔
        (exMergedFrame.counter > (mkFrame 2 2 6 1 7).counter ∨
          exMergedFrame.width ≠ (mkFrame 2 2 6 1 7).width ∨
          exMergedFrame.height ≠ (mkFrame 2 2 6 1 7).height)) ∧
      (¬(exMergedFrame.counter > (mkFrame 2 2 6 1 7).counter ∨
          exMergedFrame.width ≠ (mkFrame 2 2 6 1 7).width ∨
          exMergedFrame.height ≠ (mkFrame 2 2 6 1 7).height) →
        st2.depthMergedFrame = some (.merged exMergedFrame) ∧ out = .merged exMergedFrame) :=
  cache_staleness_discard_iff 5 250 ⟨[(0, exGapFirstFs)], some (.merged exMergedFrame)⟩
    exGapFirstFs exGapSecondFs (mkFrame 2 2 6 1 7) exMergedFrame true
    rfl rfl rfl ⟨false, rfl⟩ rfl

/-- C9: when the cached merge result is absent and no fresh merge is
produced — either the admission step leaves the buffer below two bundles
(incomplete pair) or the extracted pair fails validation — the entry point
returns the raw input frame unchanged, and the cache stays absent. -/
theorem no_cache_passthrough (low high : Nat) (st : PState) (fs : Frameset) (d : SubFrame)
    (a : Bool) (hd : fs.depth = some d) (hcache : st.depthMergedFrame = none)
    (h : (storeStep st.framesets d.seqId fs).length < 2 ∨
      (2 ≤ (storeStep st.framesets d.seqId fs).length ∧
        ∃ f0 f1 u, mapFind (storeStep st.framesets d.seqId fs) 0 = some f0 ∧
          mapFind (storeStep st.framesets d.seqId fs) 1 = some f1 ∧
          check_frames_mergeability f0 f1 = some (false, u))) :
    ∃ st2, process_frame low high st (.set fs) a = some (.set fs, st2) ∧
      st2.depthMergedFrame = none := by
  rcases h with hlt | ⟨hge, f0, f1, u, h0, h1, hc⟩
  · refine ⟨⟨storeStep st.framesets d.seqId fs, none⟩, ?_, rfl⟩
    have hn : ¬2 ≤ (storeStep st.framesets d.seqId fs).length := by omega
    simp [process_frame, process_eligible, hn, hd, hcache, latest_or_input]
  · refine ⟨⟨[], none⟩, ?_, rfl⟩
    simp [process_frame, process_eligible, hge, hd, h0, h1, process_pair, hc,
      discard_depth_merged_frame_if_needed, hcache, latest_or_input]

/-- C9 (witness): an out-of-order bundle (sequence id 1 into the empty
buffer) with no cache passes through unchanged. -/
theorem no_cache_passthrough_witness :
    ∃ st2, process_frame 5 250 initState (.set exSecondFs) true =
      some (.set exSecondFs, st2) ∧ st2.depthMergedFrame = none :=
  no_cache_passthrough 5 250 initState exSecondFs (mkFrame 2 2 11 1 7) true
    rfl rfl (Or.inl (by decide))

/-- C7 (counterexample): a mergeable pair — adjacent depth counters 2^32
and 2^32+1, equal dimensions, so the validator itself reports mergeable —
for which the code computes use_infrared = true although the first depth
frame counter (2^32) does not equal the first infrared frame counter (0)
as the claim requires: the `static_cast<int>` truncation makes the two
counters compare equal. -/
theorem should_ir_truncated_counter_cex :
    check_frames_mergeability
        ⟨some (mkFrame 4 4 4294967296 0 5), some (mkFrame 4 4 0 0 100)⟩
        ⟨some (mkFrame 4 4 4294967297 1 7), some (mkFrame 4 4 4294967297 1 100)⟩ =
      some (true, true) ∧
    (mkFrame 4 4 4294967296 0 5).counter ≠ (mkFrame 4 4 0 0 100).counter := by
  refine ⟨?_, by decide⟩
  decide

/-- Whenever a completed pair is processed, the sequence buffer of the new
state is empty: the buffer was cleared before the validation, merge or
staleness outcome was computed. -/
theorem process_pair_clears_buffer (low high : Nat) (st : PState) (f : RFrame) (a : Bool)
    (fs_0 fs_1 : Frameset) (r : RFrame × PState)
    (hr : process_pair low high st f a fs_0 fs_1 = some r) : r.2.framesets = [] := by
  unfold process_pair at hr
  split at hr
  case h_1 b u heq =>
    split at hr
    case isTrue =>
      split at hr
      case h_1 nf hnf => cases hr; rfl
      case h_2 => cases hr
    case isFalse =>
      split at hr
      case h_1 c1 hc1 => cases hr; rfl
      case h_2 => cases hr
  case h_2 => cases hr

/-- Effect of the admission step on a buffer satisfying the invariant:
either the invariant is preserved, or the buffer became the completed
two-slot pair. -/
theorem storeStep_cases (m : List (Int × Frameset)) (sid : Int) (fs : Frameset)
    (hinv : bufInv m) :
    bufInv (storeStep m sid fs) ∨
      ∃ g, m = [(0, g)] ∧ storeStep m sid fs = [(0, g), (1, fs)] := by
  rcases hinv with rfl | ⟨g, rfl⟩
  · unfold storeStep
    split
    case isTrue hg =>
      have hsid : sid = 0 := by simp at hg; omega
      subst hsid
      exact Or.inl (Or.inr ⟨fs, by simp [mapInsert, (by decide : toInt32 0 = 0)]⟩)
    case isFalse hg => exact Or.inl (Or.inl rfl)
  · unfold storeStep
    split
    case isTrue hg =>
      have hsid : sid = 1 := by simp at hg; omega
      subst hsid
      exact Or.inr ⟨g, rfl, by simp [mapInsert, (by decide : toInt32 1 = 1)]⟩
    case isFalse hg => exact Or.inl (Or.inr ⟨g, rfl⟩)

/-- The admitted-frame step preserves the buffer invariant. -/
theorem process_eligible_bufInv (low high : Nat) (st : PState) (f : RFrame) (a : Bool)
    (fs : Frameset) (d : SubFrame) (hinv : bufInv st.framesets) (r : RFrame × PState)
    (hr : process_eligible low high st f a fs d = some r) : bufInv r.2.framesets := by
  unfold process_eligible at hr
  split at hr
  case isTrue hlen =>
    split at hr
    case h_1 fs0 fs1 h0 h1 =>
      rw [process_pair_clears_buffer low high st f a fs0 fs1 r hr]
      exact Or.inl rfl
    all_goals cases hr
  case isFalse hlen =>
    cases hr
    rcases storeStep_cases st.framesets d.seqId fs hinv with hb | ⟨g, hm, hins⟩
    · exact hb
    · exfalso
      rw [hins] at hlen
      simp at hlen

/-- A single invocation of the block preserves the buffer invariant. -/
theorem invoke_bufInv (low high : Nat) (st : PState) (f : RFrame) (a : Bool)
    (hinv : bufInv st.framesets) : bufInv (invoke low high st f a).2.framesets := by
  unfold invoke
  split
  case isTrue hsp =>
    rcases hp : process_frame low high st f a with _ | r
    · simp only [hp, Option.getD_none]
      exact hinv
    · have h2 : bufInv r.2.framesets := by
        unfold process_frame at hp
        split at hp
        case h_1 fs =>
          split at hp
          case h_1 dd hdd =>
            exact process_eligible_bufInv low high st (.set fs) a fs dd hinv r hp
          case h_2 => cases hp
        all_goals cases hp
      simp only [hp, Option.getD_some]
      exact h2
  case isFalse => exact hinv

/-- C10: after any number of invocations starting from the initial state,
the sequence buffer holds at most one bundle, and when it holds exactly
one that bundle occupies slot 0: a completed pair is always extracted and
the buffer cleared within the very invocation in which occupancy reached
two, whatever the validation, allocation and merge outcomes were, so two
bundles are never carried across invocations and slot 1 is never occupied
between invocations. -/
theorem run_buffer_at_most_slot_zero (low high : Nat) (inputs : List (RFrame × Bool)) :
    bufInv (runTrace low high initState inputs).framesets := by
  have key : ∀ (l : List (RFrame × Bool)) (st : PState), bufInv st.framesets →
      bufInv (runTrace low high st l).framesets := by
    intro l
    induction l with
    | nil => intro st h; exact h
    | cons p rest ih =>
      intro st h
      obtain ⟨pf, pa⟩ := p
      exact ih _ (invoke_bufInv low high st pf pa h)
  exact key inputs initState (Or.inl rfl)

end HdrMerge
